import Mathlib

/-!
Verification of the node quantization configuration resolution engine
(`set_node_quantization_config.py`): per-node candidate synthesis, the
graph-level orchestration pass, enable-flag reconciliation, candidate
ordering, and the deep-copy discipline of the mixed-precision branch.

Python objects are embedded shallowly: configuration classes become Lean
structures, the global policy object lives in an explicit `Store` heap so
that reference aliasing and `copy.deepcopy` can be reasoned about, and
fatal failures (`assert`, `Logger.critical`, unguarded `None` subscripts)
become `Except` errors.
-/

/-- Quantization method identifiers are plain strings (the method enum's
member names); the selector tables are keyed by them. -/
abbrev QuantizationMethod := String

/-- Abstract tag standing for a quantization transform function returned by
the selector tables (the numeric kernels are outside this core). -/
abbrev QuantizerFn := Nat

/-- Abstract tag standing for a parameter-fitting function returned by the
selector tables. -/
abbrev ParamsFn := Nat

/-- Abstract operator type of a node (`node.type` in the source). -/
abbrev NodeType := Nat

/-- Modelled from the spec: `QuantizationConfig` is the global user-supplied
policy object (default bit-widths, enabled flags, threshold-search method);
its class body is not under src/, only its use as an opaque-to-the-engine
policy record. The exact fields are irrelevant to the engine; a few
representative ones make mutation observable. -/
structure QuantizationConfig where
  activation_error_method : Nat
  weights_error_method : Nat
  enable_weights_quantization : Bool
  enable_activation_quantization : Bool
deriving DecidableEq, Repr, Inhabited

/-- A heap of `QuantizationConfig` objects: models Python object identity so
that `copy.deepcopy(qc)` (fresh allocation) versus passing `qc` itself
(aliasing) are distinguishable. -/
structure Store where
  data : List QuantizationConfig
deriving DecidableEq, Repr, Inhabited

/-- Dereference a policy object. -/
def Store.read (s : Store) (r : Nat) : QuantizationConfig :=
  s.data.getD r default

/-- Allocate a fresh policy object (models `copy.deepcopy`); returns the new
heap and the fresh reference. -/
def Store.alloc (s : Store) (v : QuantizationConfig) : Store × Nat :=
  (⟨s.data ++ [v]⟩, s.data.length)

/-- Mutate the policy object at a reference (models a later stage writing
through a candidate's policy pointer). -/
def Store.write (s : Store) (r : Nat) (v : QuantizationConfig) : Store :=
  ⟨s.data.set r v⟩

/-- Modelled from the spec: `AttributeQuantizationConfig` (TPC schema, not
under src/) is one attribute's weight-quantization sub-config: method,
bit-width, per-channel flag and enable flag. -/
structure AttributeQuantizationConfig where
  weights_quantization_method : QuantizationMethod
  weights_n_bits : Nat
  weights_per_channel_threshold : Bool
  enable_weights_quantization : Bool
deriving DecidableEq, Repr, Inhabited

/-- Modelled from the spec: `OpQuantizationConfig` (TPC schema, not under
src/) carries the activation method/bit-width, a mapping from attribute name
to its weight sub-config, and a default fallback sub-config for unlisted
attributes. -/
structure OpQuantizationConfig where
  activation_quantization_method : QuantizationMethod
  activation_n_bits : Nat
  enable_activation_quantization : Bool
  attr_weights_configs_mapping : List (String × AttributeQuantizationConfig)
  default_weight_attr_config : AttributeQuantizationConfig
deriving DecidableEq, Repr, Inhabited

/-- Modelled from the spec: `QuantizationConfigOptions` (TPC schema, not
under src/) is the ordered list of `OpQuantizationConfig` candidates for a
node type with one designated `base_config`. -/
structure QuantizationConfigOptions where
  quantization_config_list : List OpQuantizationConfig
  base_config : OpQuantizationConfig
deriving DecidableEq, Repr, Inhabited

/-- Modelled from the spec: `NodeWeightsQuantizationConfig` carries the
resolved weights bit-width, method, per-channel flag, channel axis, enable
flag, and the bound quantization/param-fitting functions. -/
structure NodeWeightsQuantizationConfig where
  weights_quantization_method : QuantizationMethod
  weights_n_bits : Nat
  weights_per_channel_threshold : Bool
  enable_weights_quantization : Bool
  weights_channels_axis : Int
  weights_quantization_fn : QuantizerFn
  weights_quantization_params_fn : ParamsFn
deriving DecidableEq, Repr, Inhabited

/-- Modelled from the spec: `NodeActivationQuantizationConfig` carries the
resolved activation bit-width, method, enable flag, and the bound
quantization/param-fitting functions. -/
structure NodeActivationQuantizationConfig where
  activation_quantization_method : QuantizationMethod
  activation_n_bits : Nat
  enable_activation_quantization : Bool
  activation_quantization_fn : QuantizerFn
  activation_quantization_params_fn : ParamsFn
deriving DecidableEq, Repr, Inhabited

/-- One synthesized candidate: pairs a weights config and an activation
config. `qcRef` is the reference to the `QuantizationConfig` policy object
the candidate was constructed from (the `qc` argument the source passes to
the `CandidateNodeQuantizationConfig` constructor): the mixed-precision
branch passes a deep copy, the single-candidate branch passes the caller's
object itself. -/
structure CandidateNodeQuantizationConfig where
  qcRef : Nat
  weights_quantization_cfg : NodeWeightsQuantizationConfig
  activation_quantization_cfg : NodeActivationQuantizationConfig
deriving DecidableEq, Repr, Inhabited

/-- Modelled from the spec: the framework-info collaborator (external
adapter): `kernel_channels_mapping[node_type]` (a dict, so absent types give
`none`), `activation_quantizer_mapping[method]` (lookup may miss), and
`get_kernel_op_attributes(node_type)`. -/
structure FrameworkInfo where
  kernel_channels_mapping : NodeType → Option (List Int)
  activation_quantizer_mapping : QuantizationMethod → Option QuantizerFn
  get_kernel_op_attributes : NodeType → List String

/-- Modelled from the spec: the quantizer-function selector modules
(`quantization_fn_selection.py` / `quantization_params_fn_selection.py`, not
under src/): pure lookup tables from a quantization method to the transform
function and to the parameter-fitting function. -/
structure FnSelection where
  get_weights_quantization_fn : QuantizationMethod → Option QuantizerFn
  get_weights_quantization_params_fn : QuantizationMethod → ParamsFn
  get_activation_quantization_params_fn : QuantizationMethod → ParamsFn

/-- Modelled from the spec: the target-platform-capabilities collaborator,
reduced to what the engine consumes: `node.get_qco(tpc)` yields the node
type's `QuantizationConfigOptions`. -/
abbrev TPC := NodeType → QuantizationConfigOptions

/-- Modelled from the spec: the graph-IR node collaborator: its operator
`type`, the structural queries `has_weights_to_quantize(fw_info)` and
`get_has_activation()` (reduced to their Boolean results), and the mutable
`candidates_quantization_cfg` field this engine populates. -/
structure BaseNode where
  type : NodeType
  has_weights_to_quantize : Bool
  get_has_activation : Bool
  candidates_quantization_cfg : List CandidateNodeQuantizationConfig
deriving DecidableEq, Repr, Inhabited

/-- Modelled from the spec: the graph collaborator: node list plus the
`fw_info` and `tpc` handles the orchestrator reads off it. -/
structure Graph where
  nodes : List BaseNode
  fw_info : FrameworkInfo
  tpc : TPC

/-- The fatal failure modes of the engine: `assert` failure
(kernel-attribute resolution), `Logger.critical(msg)` (unknown quantization
method), `TypeError` from subscripting `None` (missing
`kernel_channels_mapping` entry), and `IndexError` from subscripting an
empty sequence. -/
inductive QError where
  | assertionError
  | criticalMsg (msg : String)
  | typeError
  | indexError
deriving DecidableEq, Repr

/-- `op_cfg.attr_weights_configs_mapping.get(kernel_attr,
op_cfg.default_weight_attr_config)`: the weight sub-config used for the
kernel attribute, falling back to the default attribute config. -/
def resolvedWeightsCfg (op_cfg : OpQuantizationConfig) (kernel_attr : String) :
    AttributeQuantizationConfig :=
  (op_cfg.attr_weights_configs_mapping.lookup kernel_attr).getD
    op_cfg.default_weight_attr_config

/-- The `CandidateNodeQuantizationConfig` record built at the end of
`_create_node_single_candidate_qc` once both function lookups succeeded. -/
def mkCandidate (sel : FnSelection) (qc : Nat) (weight_channel_axis : Int)
    (op_cfg : OpQuantizationConfig) (kernel_attr : String)
    (wfn afn : QuantizerFn) : CandidateNodeQuantizationConfig :=
  let weights_cfg := resolvedWeightsCfg op_cfg kernel_attr
  { qcRef := qc
    weights_quantization_cfg :=
      { weights_quantization_method := weights_cfg.weights_quantization_method
        weights_n_bits := weights_cfg.weights_n_bits
        weights_per_channel_threshold := weights_cfg.weights_per_channel_threshold
        enable_weights_quantization := weights_cfg.enable_weights_quantization
        weights_channels_axis := weight_channel_axis
        weights_quantization_fn := wfn
        weights_quantization_params_fn :=
          sel.get_weights_quantization_params_fn weights_cfg.weights_quantization_method }
    activation_quantization_cfg :=
      { activation_quantization_method := op_cfg.activation_quantization_method
        activation_n_bits := op_cfg.activation_n_bits
        enable_activation_quantization := op_cfg.enable_activation_quantization
        activation_quantization_fn := afn
        activation_quantization_params_fn :=
          sel.get_activation_quantization_params_fn op_cfg.activation_quantization_method } }

/-- `_create_node_single_candidate_qc`: resolve the kernel attribute's weight
sub-config (with fallback), look up the weights transform function
(`Logger.critical` naming the attribute on a miss), look up the activation
transform function (`Logger.critical` on a miss), and build the candidate.
`qc` is the reference to the policy object handed in by the caller. -/
def create_node_single_candidate_qc (sel : FnSelection) (fw_info : FrameworkInfo)
    (qc : Nat) (weight_channel_axis : Int) (op_cfg : OpQuantizationConfig)
    (kernel_attr : String) : Except QError CandidateNodeQuantizationConfig :=
  match sel.get_weights_quantization_fn
      (resolvedWeightsCfg op_cfg kernel_attr).weights_quantization_method with
  | none => .error (.criticalMsg
      ("Unknown quantization method for weights for quantizing attribute: " ++ kernel_attr))
  | some wfn =>
    match fw_info.activation_quantizer_mapping op_cfg.activation_quantization_method with
    | none => .error (.criticalMsg "Unknown quantization method for activations")
    | some afn => .ok (mkCandidate sel qc weight_channel_axis op_cfg kernel_attr wfn afn)

/-- The sort key of `candidates.sort`: the pair (weights bit-width,
activation bit-width). -/
def candKey (c : CandidateNodeQuantizationConfig) : Nat × Nat :=
  (c.weights_quantization_cfg.weights_n_bits,
   c.activation_quantization_cfg.activation_n_bits)

/-- The comparison of `candidates.sort(key=..., reverse=True)`: `a` may come
before `b` exactly when `a`'s key is lexicographically greater than or equal
to `b`'s (descending order). -/
def candLe (a b : CandidateNodeQuantizationConfig) : Bool :=
  decide ((candKey b).1 < (candKey a).1 ∨
    ((candKey b).1 = (candKey a).1 ∧ (candKey b).2 ≤ (candKey a).2))

/-- The mixed-precision loop of `_create_node_candidates_qc`: for each
`op_cfg` in `quantization_config_list`, deep-copy the policy object
(`copy.deepcopy(qc)`, a fresh heap allocation of the value at `qc`) and
synthesize one candidate from the copy; any `Logger.critical` aborts the
whole loop. -/
def buildMixedPrecisionCandidates (sel : FnSelection) (fw_info : FrameworkInfo)
    (weight_channel_axis : Int) (kernel_attr : String) (qc : Nat) :
    Store → List OpQuantizationConfig →
    Except QError (Store × List CandidateNodeQuantizationConfig)
  | s, [] => .ok (s, [])
  | s, op_cfg :: rest =>
    match create_node_single_candidate_qc sel fw_info (s.alloc (s.read qc)).2
        weight_channel_axis op_cfg kernel_attr with
    | .error e => .error e
    | .ok cand =>
      match buildMixedPrecisionCandidates sel fw_info weight_channel_axis kernel_attr qc
          (s.alloc (s.read qc)).1 rest with
      | .error e => .error e
      | .ok (s2, cands) => .ok (s2, cand :: cands)

/-- The body of `_create_node_candidates_qc` after the kernel attribute has
been resolved: mixed precision synthesizes one candidate per config-list
entry from a deep-copied policy and stable-sorts descending by
(weights bits, activation bits); otherwise a single candidate is built from
`base_config` using the caller's policy object itself. -/
def create_node_candidates_qc_with_attr (sel : FnSelection) (s : Store) (qc : Nat)
    (fw_info : FrameworkInfo) (weight_channel_axis : Int)
    (node_qc_options : QuantizationConfigOptions) (kernel_attr : String)
    (mixed_precision_enable : Bool) :
    Except QError (Store × List CandidateNodeQuantizationConfig) :=
  if mixed_precision_enable then
    match buildMixedPrecisionCandidates sel fw_info weight_channel_axis kernel_attr qc s
        node_qc_options.quantization_config_list with
    | .error e => .error e
    | .ok (s2, candidates) => .ok (s2, candidates.mergeSort candLe)
  else
    match create_node_single_candidate_qc sel fw_info qc weight_channel_axis
        node_qc_options.base_config kernel_attr with
    | .error e => .error e
    | .ok cand => .ok (s, [cand])

/-- `_create_node_candidates_qc`: resolve the kernel attribute names for the
node type, `assert len(kernel_attr) == 1`, then synthesize the candidate
list with the single resolved attribute name. -/
def create_node_candidates_qc (sel : FnSelection) (s : Store) (qc : Nat)
    (fw_info : FrameworkInfo) (weight_channel_axis : Int)
    (node_qc_options : QuantizationConfigOptions) (node_type : NodeType)
    (mixed_precision_enable : Bool) :
    Except QError (Store × List CandidateNodeQuantizationConfig) :=
  match fw_info.get_kernel_op_attributes node_type with
  | [kernel_attr] =>
    create_node_candidates_qc_with_attr sel s qc fw_info weight_channel_axis
      node_qc_options kernel_attr mixed_precision_enable
  | _ => .error .assertionError

/-- The enable-flag reconciliation applied to one candidate by the loop at
the end of `set_quantization_configs_to_node`: AND each enable flag with the
node's structural capability. -/
def reconcileCandidate (has_weights has_activation : Bool)
    (c : CandidateNodeQuantizationConfig) : CandidateNodeQuantizationConfig :=
  { c with
    weights_quantization_cfg := { c.weights_quantization_cfg with
      enable_weights_quantization :=
        c.weights_quantization_cfg.enable_weights_quantization && has_weights }
    activation_quantization_cfg := { c.activation_quantization_cfg with
      enable_activation_quantization :=
        c.activation_quantization_cfg.enable_activation_quantization && has_activation } }

/-- `set_quantization_configs_to_node`: get the node's options from the TPC,
take `fw_info.kernel_channels_mapping.get(node.type)[0]` as the weight
channel axis (`TypeError` if the dict lookup returns `None`, `IndexError`
if the sequence is empty), synthesize the candidates, attach them, then
reconcile every candidate's enable flags with the node's structural
capabilities. -/
def set_quantization_configs_to_node (sel : FnSelection) (s : Store)
    (node : BaseNode) (qc : Nat) (fw_info : FrameworkInfo) (tpc : TPC)
    (mixed_precision_enable : Bool) : Except QError (Store × BaseNode) :=
  match fw_info.kernel_channels_mapping node.type with
  | none => .error .typeError
  | some [] => .error .indexError
  | some (weight_channel_axis :: _) =>
    match create_node_candidates_qc sel s qc fw_info weight_channel_axis
        (tpc node.type) node.type mixed_precision_enable with
    | .error e => .error e
    | .ok (s2, cands) =>
      .ok (s2, { node with
        candidates_quantization_cfg := cands.map
          (reconcileCandidate node.has_weights_to_quantize node.get_has_activation) })

/-- The per-node loop of `set_quantization_configuration_to_graph`, threading
the heap; a fatal error on any node aborts the whole pass. -/
def setNodesLoop (sel : FnSelection) (fw_info : FrameworkInfo) (tpc : TPC)
    (qc : Nat) (mixed_precision_enable : Bool) :
    Store → List BaseNode → Except QError (Store × List BaseNode)
  | s, [] => .ok (s, [])
  | s, n :: rest =>
    match set_quantization_configs_to_node sel s n qc fw_info tpc
        mixed_precision_enable with
    | .error e => .error e
    | .ok (s1, n2) =>
      match setNodesLoop sel fw_info tpc qc mixed_precision_enable s1 rest with
      | .error e => .error e
      | .ok (s2, ns) => .ok (s2, n2 :: ns)

/-- `set_quantization_configuration_to_graph`: apply
`set_quantization_configs_to_node` to every node of the graph and return the
graph. -/
def set_quantization_configuration_to_graph (sel : FnSelection) (s : Store)
    (graph : Graph) (qc : Nat) (mixed_precision_enable : Bool) :
    Except QError (Store × Graph) :=
  match setNodesLoop sel graph.fw_info graph.tpc qc mixed_precision_enable s
      graph.nodes with
  | .error e => .error e
  | .ok (s2, ns) => .ok (s2, { graph with nodes := ns })

/-- Does the character list `p` occur as a prefix of `l`? -/
def listStartsWith : List Char → List Char → Bool
  | [], _ => true
  | _ :: _, [] => false
  | a :: as, b :: bs => a == b && listStartsWith as bs

/-- Does the character list `p` occur contiguously inside `l`? Used to state
whether an error message names a method. -/
def listContainsSub (p l : List Char) : Bool :=
  l.tails.any (fun t => listStartsWith p t)

/-! ### Concrete instances (the spec's Scenario A/B/C/D data) -/

/-- A per-attribute weight sub-config with the given bit-width. -/
def attrCfgAt (w : Nat) : AttributeQuantizationConfig :=
  { weights_quantization_method := "POWER_OF_TWO"
    weights_n_bits := w
    weights_per_channel_threshold := true
    enable_weights_quantization := true }

/-- An op config with the given (weights bits, activation bits) pair, the
kernel attribute named "kernel". -/
def opCfgAt (w a : Nat) : OpQuantizationConfig :=
  { activation_quantization_method := "POWER_OF_TWO"
    activation_n_bits := a
    enable_activation_quantization := true
    attr_weights_configs_mapping := [("kernel", attrCfgAt w)]
    default_weight_attr_config := attrCfgAt 0 }

/-- An attribute sub-config carrying the unknown method "badMethod"
(Scenario D). -/
def attrBad : AttributeQuantizationConfig :=
  { weights_quantization_method := "badMethod"
    weights_n_bits := 8
    weights_per_channel_threshold := true
    enable_weights_quantization := true }

/-- An op config whose kernel attribute resolves to the unknown weights
method "badMethod". -/
def opBad : OpQuantizationConfig :=
  { activation_quantization_method := "POWER_OF_TWO"
    activation_n_bits := 8
    enable_activation_quantization := true
    attr_weights_configs_mapping := [("kernel", attrBad)]
    default_weight_attr_config := attrBad }

/-- A selector table that knows every method. -/
def selX : FnSelection :=
  { get_weights_quantization_fn := fun _ => some 1
    get_weights_quantization_params_fn := fun _ => 2
    get_activation_quantization_params_fn := fun _ => 3 }

/-- A selector table with no entry for "badMethod". -/
def selY : FnSelection :=
  { get_weights_quantization_fn := fun m => if m = "badMethod" then none else some 1
    get_weights_quantization_params_fn := fun _ => 2
    get_activation_quantization_params_fn := fun _ => 3 }

/-- A framework-info adapter resolving every type to axis list [3] and the
single kernel attribute "kernel". -/
def fwX : FrameworkInfo :=
  { kernel_channels_mapping := fun _ => some [3]
    activation_quantizer_mapping := fun _ => some 4
    get_kernel_op_attributes := fun _ => ["kernel"] }

/-- A framework-info adapter whose kernel-channels dict has no entry for any
type (`dict.get` returns `None`). -/
def fwNoMap : FrameworkInfo :=
  { kernel_channels_mapping := fun _ => none
    activation_quantizer_mapping := fun _ => some 4
    get_kernel_op_attributes := fun _ => ["kernel"] }

/-- A framework-info adapter resolving zero kernel attributes. -/
def fwNoAttrs : FrameworkInfo :=
  { kernel_channels_mapping := fun _ => some [3]
    activation_quantizer_mapping := fun _ => some 4
    get_kernel_op_attributes := fun _ => [] }

/-- Scenario A options: (weights, activation) bit pairs
[(8,8),(4,8),(8,4),(2,2)], base config (8,8). -/
def optsX : QuantizationConfigOptions :=
  { quantization_config_list := [opCfgAt 8 8, opCfgAt 4 8, opCfgAt 8 4, opCfgAt 2 2]
    base_config := opCfgAt 8 8 }

/-- Options carrying only the unknown-method op config. -/
def optsBad : QuantizationConfigOptions :=
  { quantization_config_list := [opBad], base_config := opBad }

/-- The concrete global policy object. -/
def qcX : QuantizationConfig := default

/-- A policy value distinct from `qcX`, used as the mutation payload. -/
def vX : QuantizationConfig :=
  { activation_error_method := 9
    weights_error_method := 9
    enable_weights_quantization := true
    enable_activation_quantization := true }

/-- The initial heap: the policy object `qcX` lives at reference 0. -/
def storeX : Store := { data := [qcX] }

/-- The heap after the four mixed-precision deep copies of `qcX`. -/
def s5X : Store := { data := [qcX, qcX, qcX, qcX, qcX] }

/-- A node with weights and activation. -/
def nodeX : BaseNode :=
  { type := 0
    has_weights_to_quantize := true
    get_has_activation := true
    candidates_quantization_cfg := [] }

/-- A node without weights to quantize (Scenario C). -/
def nodeNoW : BaseNode :=
  { type := 0
    has_weights_to_quantize := false
    get_has_activation := true
    candidates_quantization_cfg := [] }

/-- The TPC mapping every type to `optsX`. -/
def tpcX : TPC := fun _ => optsX

/-- The TPC mapping every type to `optsBad`. -/
def tpcBad : TPC := fun _ => optsBad

/-- The candidate synthesized by `selX`/`fwX` from `opCfgAt w a` with the
policy reference `r`. -/
def mkCandX (r w a : Nat) : CandidateNodeQuantizationConfig :=
  { qcRef := r
    weights_quantization_cfg :=
      { weights_quantization_method := "POWER_OF_TWO"
        weights_n_bits := w
        weights_per_channel_threshold := true
        enable_weights_quantization := true
        weights_channels_axis := 3
        weights_quantization_fn := 1
        weights_quantization_params_fn := 2 }
    activation_quantization_cfg :=
      { activation_quantization_method := "POWER_OF_TWO"
        activation_n_bits := a
        enable_activation_quantization := true
        activation_quantization_fn := 4
        activation_quantization_params_fn := 3 } }

/-- The unsorted mixed-precision candidate sequence synthesized from
`optsX`, in `quantization_config_list` order, with the fresh copy
references 1..4. -/
def rawX : List CandidateNodeQuantizationConfig :=
  [mkCandX 1 8 8, mkCandX 2 4 8, mkCandX 3 8 4, mkCandX 4 2 2]

/-- The single-node graph over `fwX`/`tpcX`. -/
def graphX : Graph := { nodes := [nodeX], fw_info := fwX, tpc := tpcX }

/-- `nodeX` after configuration: one reconciled base-config candidate. -/
def node8X : BaseNode :=
  { nodeX with candidates_quantization_cfg :=
      [reconcileCandidate true true (mkCandX 0 8 8)] }

/-- `graphX` after the orchestration pass. -/
def g8X : Graph := { graphX with nodes := [node8X] }

/-! ### Store lemmas -/

theorem Store.read_write_ne {s : Store} {r r2 : Nat} (h : r ≠ r2)
    (v : QuantizationConfig) : (s.write r v).read r2 = s.read r2 := by
  simp [Store.write, Store.read, List.getD, List.getElem?_set_ne h]

theorem Store.read_write_self {s : Store} {r : Nat} (h : r < s.data.length)
    (v : QuantizationConfig) : (s.write r v).read r = v := by
  simp [Store.write, Store.read, List.getD, List.getElem?_set_self h]

/-! ### Comparison lemmas -/

theorem candLe_trans (a b c : CandidateNodeQuantizationConfig)
    (h1 : candLe a b = true) (h2 : candLe b c = true) : candLe a c = true := by
  simp only [candLe, decide_eq_true_eq] at h1 h2 ⊢
  omega

theorem candLe_total (a b : CandidateNodeQuantizationConfig) :
    (candLe a b || candLe b a) = true := by
  simp only [candLe, Bool.or_eq_true, decide_eq_true_eq]
  omega

/-! ### Single-candidate synthesis lemmas -/

theorem create_single_ok_iff {sel : FnSelection} {fw_info : FrameworkInfo}
    {qc : Nat} {wca : Int} {op_cfg : OpQuantizationConfig} {ka : String}
    {c : CandidateNodeQuantizationConfig} :
    create_node_single_candidate_qc sel fw_info qc wca op_cfg ka = .ok c ↔
      ∃ wfn afn,
        sel.get_weights_quantization_fn
          (resolvedWeightsCfg op_cfg ka).weights_quantization_method = some wfn ∧
        fw_info.activation_quantizer_mapping op_cfg.activation_quantization_method
          = some afn ∧
        c = mkCandidate sel qc wca op_cfg ka wfn afn := by
  unfold create_node_single_candidate_qc
  cases hw : sel.get_weights_quantization_fn
      (resolvedWeightsCfg op_cfg ka).weights_quantization_method with
  | none => simp [hw]
  | some wfn =>
    cases ha : fw_info.activation_quantizer_mapping
        op_cfg.activation_quantization_method with
    | none => simp [hw, ha]
    | some afn =>
      constructor
      · intro h
        exact ⟨wfn, afn, rfl, rfl, (Except.ok.inj h).symm⟩
      · rintro ⟨wfn2, afn2, hw2, ha2, hc⟩
        cases hw2
        cases ha2
        rw [hc]

theorem create_single_qcRef {sel : FnSelection} {fw_info : FrameworkInfo}
    {qc : Nat} {wca : Int} {op_cfg : OpQuantizationConfig} {ka : String}
    {c : CandidateNodeQuantizationConfig}
    (h : create_node_single_candidate_qc sel fw_info qc wca op_cfg ka = .ok c) :
    c.qcRef = qc := by
  obtain ⟨wfn, afn, -, -, hc⟩ := create_single_ok_iff.mp h
  rw [hc]
  rfl

theorem create_single_error_critical {sel : FnSelection} {fw_info : FrameworkInfo}
    {qc : Nat} {wca : Int} {op_cfg : OpQuantizationConfig} {ka : String}
    {e : QError}
    (h : create_node_single_candidate_qc sel fw_info qc wca op_cfg ka = .error e) :
    ∃ m, e = .criticalMsg m := by
  unfold create_node_single_candidate_qc at h
  cases hw : sel.get_weights_quantization_fn
      (resolvedWeightsCfg op_cfg ka).weights_quantization_method with
  | none =>
    rw [hw] at h
    exact ⟨_, (Except.error.inj h).symm⟩
  | some wfn =>
    rw [hw] at h
    cases ha : fw_info.activation_quantizer_mapping
        op_cfg.activation_quantization_method with
    | none =>
      rw [ha] at h
      exact ⟨_, (Except.error.inj h).symm⟩
    | some afn =>
      rw [ha] at h
      exact absurd h (by simp)

/-! ### Mixed-precision loop lemmas -/

theorem buildMP_spec {sel : FnSelection} {fw_info : FrameworkInfo} {wca : Int}
    {ka : String} {qc : Nat} :
    ∀ (cfgs : List OpQuantizationConfig) (s s2 : Store)
      (cs : List CandidateNodeQuantizationConfig),
    buildMixedPrecisionCandidates sel fw_info wca ka qc s cfgs = .ok (s2, cs) →
    s2.data.length = s.data.length + cs.length ∧
    cs.length = cfgs.length ∧
    (∀ c ∈ cs, s.data.length ≤ c.qcRef ∧ c.qcRef < s2.data.length) ∧
    cs.Pairwise (fun a b => a.qcRef < b.qcRef)
  | [], s, s2, cs, h => by
    unfold buildMixedPrecisionCandidates at h
    obtain ⟨rfl, rfl⟩ := Prod.mk.injEq .. ▸ (Except.ok.inj h)
    simp
  | op_cfg :: rest, s, s2, cs, h => by
    unfold buildMixedPrecisionCandidates at h
    split at h
    · exact absurd h (by simp)
    · rename_i cand hc
      split at h
      · exact absurd h (by simp)
      · rename_i s3 cs3 hr
        obtain ⟨rfl, rfl⟩ := Prod.mk.injEq .. ▸ (Except.ok.inj h)
        obtain ⟨ih1, ih2, ih3, ih4⟩ := buildMP_spec rest _ _ _ hr
        have hlen : ((s.alloc (s.read qc)).1).data.length = s.data.length + 1 := by
          simp [Store.alloc]
        have href : cand.qcRef = s.data.length := by
          have := create_single_qcRef hc
          simpa [Store.alloc] using this
        have hlc : (cand :: cs3).length = cs3.length + 1 := rfl
        refine ⟨by omega, by simp [ih2], ?_, ?_⟩
        · intro c hm
          rcases List.mem_cons.mp hm with h0 | h0
          · subst h0
            omega
          · have := ih3 c h0
            omega
        · refine List.pairwise_cons.mpr ⟨?_, ih4⟩
          intro c hm
          have := ih3 c hm
          omega

theorem buildMP_error_critical {sel : FnSelection} {fw_info : FrameworkInfo}
    {wca : Int} {ka : String} {qc : Nat} :
    ∀ (cfgs : List OpQuantizationConfig) (s : Store) (e : QError),
    buildMixedPrecisionCandidates sel fw_info wca ka qc s cfgs = .error e →
    ∃ m, e = .criticalMsg m
  | [], s, e, h => by
    unfold buildMixedPrecisionCandidates at h
    exact absurd h (by simp)
  | op_cfg :: rest, s, e, h => by
    unfold buildMixedPrecisionCandidates at h
    split at h
    · rename_i e2 hc
      obtain rfl := Except.error.inj h
      exact create_single_error_critical hc
    · rename_i cand hc
      split at h
      · rename_i e2 hr
        obtain rfl := Except.error.inj h
        exact buildMP_error_critical rest _ _ hr
      · exact absurd h (by simp)

/-! ### Candidate-list synthesis characterizations -/

theorem create_mp_ok {sel : FnSelection} {s : Store} {qc : Nat}
    {fw_info : FrameworkInfo} {wca : Int} {opts : QuantizationConfigOptions}
    {nt : NodeType} {s2 : Store} {l : List CandidateNodeQuantizationConfig}
    (h : create_node_candidates_qc sel s qc fw_info wca opts nt true = .ok (s2, l)) :
    ∃ ka raw, fw_info.get_kernel_op_attributes nt = [ka] ∧
      buildMixedPrecisionCandidates sel fw_info wca ka qc s
        opts.quantization_config_list = .ok (s2, raw) ∧
      l = raw.mergeSort candLe := by
  unfold create_node_candidates_qc at h
  split at h
  · rename_i ka heq
    unfold create_node_candidates_qc_with_attr at h
    rw [if_pos rfl] at h
    split at h
    · exact absurd h (by simp)
    · rename_i s3 raw hb
      obtain ⟨rfl, rfl⟩ := Prod.mk.injEq .. ▸ (Except.ok.inj h)
      exact ⟨ka, raw, heq, hb, rfl⟩
  · exact absurd h (by simp)

theorem create_nomp_ok {sel : FnSelection} {s : Store} {qc : Nat}
    {fw_info : FrameworkInfo} {wca : Int} {opts : QuantizationConfigOptions}
    {nt : NodeType} {s2 : Store} {l : List CandidateNodeQuantizationConfig}
    (h : create_node_candidates_qc sel s qc fw_info wca opts nt false = .ok (s2, l)) :
    s2 = s ∧ ∃ ka c, fw_info.get_kernel_op_attributes nt = [ka] ∧
      create_node_single_candidate_qc sel fw_info qc wca opts.base_config ka
        = .ok c ∧ l = [c] := by
  unfold create_node_candidates_qc at h
  split at h
  · rename_i ka heq
    unfold create_node_candidates_qc_with_attr at h
    rw [if_neg (by simp)] at h
    split at h
    · exact absurd h (by simp)
    · rename_i cand hc
      obtain ⟨rfl, rfl⟩ := Prod.mk.injEq .. ▸ (Except.ok.inj h)
      exact ⟨rfl, ka, cand, heq, hc, rfl⟩
  · exact absurd h (by simp)

/-! ### Claim theorems -/

/-- C1: for every node synthesized with mixed precision enabled, the
resulting candidate list is sorted descending by (weights bit-width,
activation bit-width) with weights as primary key — every adjacent pair has
strictly greater weights bits, or equal weights bits and greater-or-equal
activation bits — and the sort is stable: the list is the stable merge sort
of the synthesized sequence, so any sub-sequence of candidates with equal
(weights, activation) key pairs keeps the relative order it had in
`options.quantization_config_list` (which the synthesized sequence follows
one-to-one). -/
theorem C1_mixed_precision_candidates_sorted_stable
    (sel : FnSelection) (s : Store) (qc : Nat) (fw_info : FrameworkInfo)
    (wca : Int) (opts : QuantizationConfigOptions) (nt : NodeType)
    (s2 : Store) (l : List CandidateNodeQuantizationConfig)
    (h : create_node_candidates_qc sel s qc fw_info wca opts nt true = .ok (s2, l)) :
    l.Chain' (fun a b =>
      b.weights_quantization_cfg.weights_n_bits
          < a.weights_quantization_cfg.weights_n_bits ∨
      (a.weights_quantization_cfg.weights_n_bits
          = b.weights_quantization_cfg.weights_n_bits ∧
       b.activation_quantization_cfg.activation_n_bits
          ≤ a.activation_quantization_cfg.activation_n_bits)) ∧
    ∀ ka raw, fw_info.get_kernel_op_attributes nt = [ka] →
      buildMixedPrecisionCandidates sel fw_info wca ka qc s
        opts.quantization_config_list = .ok (s2, raw) →
      l = raw.mergeSort candLe ∧
      ∀ sub : List CandidateNodeQuantizationConfig, sub.Sublist raw →
        sub.Pairwise (fun a b => candKey a = candKey b) → sub.Sublist l := by
  obtain ⟨ka0, raw0, hka0, hb0, hl0⟩ := create_mp_ok h
  constructor
  · rw [hl0]
    have hs := @List.sorted_mergeSort _ candLe candLe_trans candLe_total raw0
    refine hs.chain'.imp ?_
    intro a b hab
    simp only [candLe, candKey, decide_eq_true_eq] at hab
    omega
  · intro ka raw hka hb
    rw [hka0] at hka
    obtain rfl : ka0 = ka := by injection hka
    rw [hb0] at hb
    have hraw : raw0 = raw := by
      have := Except.ok.inj hb
      exact (Prod.mk.injEq .. ▸ this).2
    subst hraw
    refine ⟨hl0, ?_⟩
    intro sub hsub hpair
    rw [hl0]
    refine List.sublist_mergeSort candLe_trans candLe_total ?_ hsub
    refine hpair.imp ?_
    intro a b hk
    simp only [candLe, decide_eq_true_eq]
    exact Or.inr ⟨by rw [hk], le_of_eq (by rw [hk])⟩

/-- C2: for every node configured with mixed precision disabled, the
attached candidate list has length exactly 1 and its single candidate is the
one `_create_node_single_candidate_qc` builds from `options.base_config`
(not from any entry of `quantization_config_list`). -/
theorem C2_single_candidate_from_base_config
    (sel : FnSelection) (s : Store) (qc : Nat) (fw_info : FrameworkInfo)
    (wca : Int) (opts : QuantizationConfigOptions) (nt : NodeType)
    (s2 : Store) (l : List CandidateNodeQuantizationConfig)
    (h : create_node_candidates_qc sel s qc fw_info wca opts nt false = .ok (s2, l)) :
    l.length = 1 ∧ ∃ ka c, fw_info.get_kernel_op_attributes nt = [ka] ∧
      create_node_single_candidate_qc sel fw_info qc wca opts.base_config ka = .ok c ∧
      l = [c] := by
  obtain ⟨-, ka, c, hka, hc, hl⟩ := create_nomp_ok h
  exact ⟨by rw [hl]; rfl, ka, c, hka, hc, hl⟩

/-- C3: for every node configured with mixed precision enabled, the attached
candidate list has length equal to `len(options.quantization_config_list)`:
exactly one candidate per `OpQuantizationConfig` entry. -/
theorem C3_mixed_precision_candidate_count
    (sel : FnSelection) (s : Store) (qc : Nat) (fw_info : FrameworkInfo)
    (wca : Int) (opts : QuantizationConfigOptions) (nt : NodeType)
    (s2 : Store) (l : List CandidateNodeQuantizationConfig)
    (h : create_node_candidates_qc sel s qc fw_info wca opts nt true = .ok (s2, l)) :
    l.length = opts.quantization_config_list.length := by
  obtain ⟨ka, raw, hka, hb, hl⟩ := create_mp_ok h
  obtain ⟨-, hlen, -, -⟩ := buildMP_spec _ _ _ _ hb
  rw [hl, (List.mergeSort_perm raw candLe).length_eq, hlen]

/-- Successful `set_quantization_configs_to_node` decomposed: the channel
axis comes from the head of the kernel-channels entry, the candidates from
`_create_node_candidates_qc`, and the attached list is the reconciled map of
the synthesized list. -/
theorem set_node_ok {sel : FnSelection} {s : Store} {node : BaseNode} {qc : Nat}
    {fw_info : FrameworkInfo} {tpc : TPC} {mp : Bool} {s2 : Store} {node2 : BaseNode}
    (h : set_quantization_configs_to_node sel s node qc fw_info tpc mp = .ok (s2, node2)) :
    ∃ a rest cands, fw_info.kernel_channels_mapping node.type = some (a :: rest) ∧
      create_node_candidates_qc sel s qc fw_info a (tpc node.type) node.type mp
        = .ok (s2, cands) ∧
      node2.candidates_quantization_cfg = cands.map
        (reconcileCandidate node.has_weights_to_quantize node.get_has_activation) := by
  unfold set_quantization_configs_to_node at h
  split at h
  · exact absurd h (by simp)
  · exact absurd h (by simp)
  · rename_i a rest hmap
    split at h
    · exact absurd h (by simp)
    · rename_i s3 cands hcr
      obtain ⟨rfl, rfl⟩ := Prod.mk.injEq .. ▸ (Except.ok.inj h)
      exact ⟨a, rest, cands, hmap, hcr, rfl⟩

/-- C4: after `set_quantization_configs_to_node` completes, the attached
list is exactly the synthesized list with every candidate's enable flags
reconciled by the same AND — weights-enable := method-derived weights-enable
AND `has_weights_to_quantize`, activation-enable := method-derived
activation-enable AND `get_has_activation` — identically for 1 or N
candidates; in particular a node without weights to quantize has every
weights-enable flag False, and symmetrically for activation. -/
theorem C4_enable_flags_reconciled
    (sel : FnSelection) (s : Store) (node : BaseNode) (qc : Nat)
    (fw_info : FrameworkInfo) (tpc : TPC) (mp : Bool) (s2 : Store) (node2 : BaseNode)
    (h : set_quantization_configs_to_node sel s node qc fw_info tpc mp = .ok (s2, node2)) :
    (∃ a rest cands,
      fw_info.kernel_channels_mapping node.type = some (a :: rest) ∧
      create_node_candidates_qc sel s qc fw_info a (tpc node.type) node.type mp
        = .ok (s2, cands) ∧
      node2.candidates_quantization_cfg = cands.map
        (reconcileCandidate node.has_weights_to_quantize node.get_has_activation) ∧
      ∀ c0 ∈ cands,
        (reconcileCandidate node.has_weights_to_quantize node.get_has_activation
            c0).weights_quantization_cfg.enable_weights_quantization =
          (c0.weights_quantization_cfg.enable_weights_quantization
            && node.has_weights_to_quantize) ∧
        (reconcileCandidate node.has_weights_to_quantize node.get_has_activation
            c0).activation_quantization_cfg.enable_activation_quantization =
          (c0.activation_quantization_cfg.enable_activation_quantization
            && node.get_has_activation)) ∧
    ∀ c ∈ node2.candidates_quantization_cfg,
      (node.has_weights_to_quantize = false →
        c.weights_quantization_cfg.enable_weights_quantization = false) ∧
      (node.get_has_activation = false →
        c.activation_quantization_cfg.enable_activation_quantization = false) := by
  obtain ⟨a, rest, cands, hmap, hcr, hnode2⟩ := set_node_ok h
  constructor
  · refine ⟨a, rest, cands, hmap, hcr, by rw [hnode2], ?_⟩
    intro c0 hc0
    exact ⟨rfl, rfl⟩
  · intro c hc
    rw [hnode2] at hc
    simp only [List.mem_map] at hc
    obtain ⟨c0, hc0, rfl⟩ := hc
    constructor
    · intro hw
      simp [reconcileCandidate, hw]
    · intro ha
      simp [reconcileCandidate, ha]

/-- C5: in mixed-precision synthesis each candidate holds an independently
deep-copied policy object: all candidate policy references are fresh (none
is the caller's reference) and pairwise distinct, so writing through one
candidate's reference changes neither any sibling candidate's policy value
nor the value at the caller's original reference. -/
theorem C5_deep_copy_isolation
    (sel : FnSelection) (s : Store) (qc : Nat) (fw_info : FrameworkInfo)
    (wca : Int) (opts : QuantizationConfigOptions) (nt : NodeType)
    (s2 : Store) (l : List CandidateNodeQuantizationConfig)
    (h : create_node_candidates_qc sel s qc fw_info wca opts nt true = .ok (s2, l))
    (hqc : qc < s.data.length) :
    (∀ c ∈ l, c.qcRef ≠ qc) ∧
    l.Pairwise (fun c1 c2 => c1.qcRef ≠ c2.qcRef) ∧
    l.Pairwise (fun c1 c2 => ∀ v,
      (Store.write s2 c1.qcRef v).read c2.qcRef = s2.read c2.qcRef ∧
      (Store.write s2 c2.qcRef v).read c1.qcRef = s2.read c1.qcRef) ∧
    (∀ c ∈ l, ∀ v, (Store.write s2 c.qcRef v).read qc = s2.read qc) := by
  obtain ⟨ka, raw, hka, hb, hl⟩ := create_mp_ok h
  obtain ⟨-, -, hmem, hpw⟩ := buildMP_spec _ _ _ _ hb
  have hmem2 : ∀ c ∈ l, s.data.length ≤ c.qcRef := by
    intro c hc
    rw [hl] at hc
    exact (hmem c (List.mem_mergeSort.mp hc)).1
  have hperm : raw.Perm l := by
    rw [hl]
    exact (List.mergeSort_perm raw candLe).symm
  have hne : l.Pairwise (fun c1 c2 => c1.qcRef ≠ c2.qcRef) := by
    refine List.Pairwise.perm (hpw.imp ?_) hperm ?_
    · intro c1 c2 hlt
      exact Nat.ne_of_lt hlt
    · intro c1 c2 hne
      exact hne.symm
  refine ⟨?_, hne, ?_, ?_⟩
  · intro c hc
    have := hmem2 c hc
    omega
  · refine hne.imp ?_
    intro c1 c2 hne12 v
    exact ⟨Store.read_write_ne hne12 v, Store.read_write_ne (fun e => hne12 e.symm) v⟩
  · intro c hc v
    have := hmem2 c hc
    exact Store.read_write_ne (by omega) v

/-- Every fatal error of the post-assert synthesis body is a
`Logger.critical` message (never the assertion error). -/
theorem with_attr_error_critical {sel : FnSelection} {s : Store} {qc : Nat}
    {fw_info : FrameworkInfo} {wca : Int} {opts : QuantizationConfigOptions}
    {ka : String} {mp : Bool} {e : QError}
    (h : create_node_candidates_qc_with_attr sel s qc fw_info wca opts ka mp
      = .error e) : ∃ m, e = .criticalMsg m := by
  unfold create_node_candidates_qc_with_attr at h
  split at h
  · split at h
    · rename_i e2 hb
      obtain rfl := Except.error.inj h
      exact buildMP_error_critical _ _ _ hb
    · exact absurd h (by simp)
  · split at h
    · rename_i e2 hc
      obtain rfl := Except.error.inj h
      exact create_single_error_critical hc
    · exact absurd h (by simp)

/-- C6: candidate synthesis fails with the fatal assertion exactly when the
framework adapter's kernel-attribute resolution for the node type does not
return exactly one name; with exactly one name it runs the synthesis body
with that single name as the kernel attribute (the name used for the weight
sub-config resolution) and never raises the assertion error. -/
theorem C6_kernel_attribute_assertion
    (sel : FnSelection) (s : Store) (qc : Nat) (fw_info : FrameworkInfo)
    (wca : Int) (opts : QuantizationConfigOptions) (nt : NodeType) (mp : Bool) :
    ((fw_info.get_kernel_op_attributes nt).length ≠ 1 →
      create_node_candidates_qc sel s qc fw_info wca opts nt mp
        = .error .assertionError) ∧
    (∀ ka, fw_info.get_kernel_op_attributes nt = [ka] →
      create_node_candidates_qc sel s qc fw_info wca opts nt mp
        = create_node_candidates_qc_with_attr sel s qc fw_info wca opts ka mp ∧
      create_node_candidates_qc sel s qc fw_info wca opts nt mp
        ≠ .error .assertionError) := by
  constructor
  · intro hne
    unfold create_node_candidates_qc
    cases hk : fw_info.get_kernel_op_attributes nt with
    | nil => rfl
    | cons a rest =>
      cases rest with
      | nil => exact absurd (by simp [hk]) hne
      | cons b bs => rfl
  · intro ka hka
    have heq : create_node_candidates_qc sel s qc fw_info wca opts nt mp
        = create_node_candidates_qc_with_attr sel s qc fw_info wca opts ka mp := by
      unfold create_node_candidates_qc
      rw [hka]
    refine ⟨heq, ?_⟩
    rw [heq]
    intro hcontra
    obtain ⟨m, hm⟩ := with_attr_error_critical hcontra
    cases hm

/-- C7 (amended): an unknown weights or activation quantization method
aborts candidate synthesis fatally before anything is attached to the node,
with the fixed messages "Unknown quantization method for weights for
quantizing attribute: <kernel_attr>" (weights case — the message names the
kernel attribute, not the method) and "Unknown quantization method for
activations" (activation case); the messages state whether the failure was
for weights or for activation but do not include the unknown method's name,
and any synthesis error propagates out of `set_quantization_configs_to_node`
unchanged, leaving the node untouched. -/
theorem C7_unknown_method_abort
    (sel : FnSelection) (fw_info : FrameworkInfo) (qc : Nat) (wca : Int)
    (op_cfg : OpQuantizationConfig) (ka : String) :
    (sel.get_weights_quantization_fn
        (resolvedWeightsCfg op_cfg ka).weights_quantization_method = none →
      create_node_single_candidate_qc sel fw_info qc wca op_cfg ka =
        .error (.criticalMsg
          ("Unknown quantization method for weights for quantizing attribute: "
            ++ ka))) ∧
    (∀ wfn, sel.get_weights_quantization_fn
        (resolvedWeightsCfg op_cfg ka).weights_quantization_method = some wfn →
      fw_info.activation_quantizer_mapping op_cfg.activation_quantization_method
        = none →
      create_node_single_candidate_qc sel fw_info qc wca op_cfg ka =
        .error (.criticalMsg "Unknown quantization method for activations")) ∧
    (∀ (s : Store) (node : BaseNode) (tpc : TPC) (mp : Bool) (a : Int)
        (rest : List Int) (e : QError),
      fw_info.kernel_channels_mapping node.type = some (a :: rest) →
      create_node_candidates_qc sel s qc fw_info a (tpc node.type) node.type mp
        = .error e →
      set_quantization_configs_to_node sel s node qc fw_info tpc mp = .error e) := by
  refine ⟨?_, ?_, ?_⟩
  · intro hw
    unfold create_node_single_candidate_qc
    rw [hw]
  · intro wfn hw ha
    unfold create_node_single_candidate_qc
    rw [hw, ha]
  · intro s node tpc mp a rest e hmap hcr
    unfold set_quantization_configs_to_node
    simp only [hmap, hcr]

/-- C7 counterexample: at a concrete node whose op config carries the
unknown weights method "badMethod", synthesis aborts with the fixed message
"Unknown quantization method for weights for quantizing attribute: kernel";
the message does not contain the method name anywhere, refuting the claim
that the error message names the unknown method. -/
theorem C7_counterexample_message_lacks_method_name :
    set_quantization_configs_to_node selY storeX nodeX 0 fwX tpcBad false =
      .error (.criticalMsg
        "Unknown quantization method for weights for quantizing attribute: kernel") ∧
    listContainsSub "badMethod".toList
      "Unknown quantization method for weights for quantizing attribute: kernel".toList
      = false := by
  constructor
  · rfl
  · decide

/-- C9: with mixed precision disabled the single candidate is built from the
caller's policy object itself — the heap is unchanged (no copy is
allocated), the candidate's policy reference is exactly the caller's
reference, and writing through the candidate's reference is visible at the
caller's reference. -/
theorem C9_single_candidate_aliases_policy
    (sel : FnSelection) (s : Store) (qc : Nat) (fw_info : FrameworkInfo)
    (wca : Int) (opts : QuantizationConfigOptions) (nt : NodeType)
    (s2 : Store) (l : List CandidateNodeQuantizationConfig)
    (h : create_node_candidates_qc sel s qc fw_info wca opts nt false = .ok (s2, l)) :
    s2 = s ∧ l.length = 1 ∧ ∀ c ∈ l, c.qcRef = qc ∧
      (qc < s.data.length → ∀ v, (Store.write s2 c.qcRef v).read qc = v) := by
  obtain ⟨hs, ka, c, hka, hc, hl⟩ := create_nomp_ok h
  refine ⟨hs, by rw [hl]; rfl, ?_⟩
  intro c2 hc2
  rw [hl] at hc2
  obtain rfl : c2 = c := by simpa using hc2
  refine ⟨create_single_qcRef hc, ?_⟩
  intro hlt v
  rw [create_single_qcRef hc, hs]
  exact Store.read_write_self hlt v

/-- C10: for a node whose type has no entry in
`fw_info.kernel_channels_mapping`, `set_quantization_configs_to_node` fails
by subscripting the `None` returned by the dict lookup — an unguarded
`TypeError` carrying no message, raised before any candidate synthesis
begins. -/
theorem C10_missing_channel_mapping_type_error
    (sel : FnSelection) (s : Store) (node : BaseNode) (qc : Nat)
    (fw_info : FrameworkInfo) (tpc : TPC) (mp : Bool)
    (h : fw_info.kernel_channels_mapping node.type = none) :
    set_quantization_configs_to_node sel s node qc fw_info tpc mp
      = .error .typeError := by
  unfold set_quantization_configs_to_node
  rw [h]

/-- A successfully configured node carries a non-empty candidate list,
provided its options list is non-empty. -/
theorem set_node_nonempty {sel : FnSelection} {s : Store} {node : BaseNode}
    {qc : Nat} {fw_info : FrameworkInfo} {tpc : TPC} {mp : Bool} {s2 : Store}
    {node2 : BaseNode}
    (hopts : (tpc node.type).quantization_config_list ≠ [])
    (h : set_quantization_configs_to_node sel s node qc fw_info tpc mp
      = .ok (s2, node2)) :
    node2.candidates_quantization_cfg ≠ [] := by
  obtain ⟨a, rest, cands, hmap, hcr, hnode2⟩ := set_node_ok h
  rw [hnode2]
  have hcands : cands ≠ [] := by
    cases mp with
    | false =>
      obtain ⟨-, ka, c, -, -, hl⟩ := create_nomp_ok hcr
      rw [hl]
      simp
    | true =>
      obtain ⟨ka, raw, -, hb, hl⟩ := create_mp_ok hcr
      obtain ⟨-, hlen, -, -⟩ := buildMP_spec _ _ _ _ hb
      have : cands.length = (tpc node.type).quantization_config_list.length := by
        rw [hl, (List.mergeSort_perm raw candLe).length_eq, hlen]
      intro hnil
      rw [hnil] at this
      exact hopts (List.length_eq_zero.mp this.symm)
  intro hnil
  exact hcands (List.map_eq_nil_iff.mp hnil)

/-- The per-node loop preserves per-node non-emptiness of the attached
candidate lists. -/
theorem setNodesLoop_nonempty {sel : FnSelection} {fw_info : FrameworkInfo}
    {tpc : TPC} {qc : Nat} {mp : Bool} :
    ∀ (nodes : List BaseNode) (s s2 : Store) (ns : List BaseNode),
    (∀ n ∈ nodes, (tpc n.type).quantization_config_list ≠ []) →
    setNodesLoop sel fw_info tpc qc mp s nodes = .ok (s2, ns) →
    ∀ n2 ∈ ns, n2.candidates_quantization_cfg ≠ []
  | [], s, s2, ns, hopts, h => by
    unfold setNodesLoop at h
    obtain ⟨rfl, rfl⟩ := Prod.mk.injEq .. ▸ (Except.ok.inj h)
    simp
  | n :: rest, s, s2, ns, hopts, h => by
    unfold setNodesLoop at h
    split at h
    · exact absurd h (by simp)
    · rename_i s1 n2 hset
      split at h
      · exact absurd h (by simp)
      · rename_i s3 ns3 hloop
        obtain ⟨rfl, rfl⟩ := Prod.mk.injEq .. ▸ (Except.ok.inj h)
        intro n3 hn3
        rcases List.mem_cons.mp hn3 with h0 | h0
        · subst h0
          exact set_node_nonempty (hopts n (List.mem_cons_self n rest)) hset
        · exact setNodesLoop_nonempty rest _ _ _
            (fun n4 hn4 => hopts n4 (List.mem_cons_of_mem n hn4)) hloop n3 h0

/-- C8: for every graph and policy, after the graph-level orchestration pass
completes (with mixed precision enabled or disabled), every node of the
returned graph carries a non-empty `candidates_quantization_cfg` list
(given that every node's options object offers at least one
`OpQuantizationConfig`, which the TPC schema constructor guarantees). -/
theorem C8_orchestration_nonempty_candidates
    (sel : FnSelection) (s : Store) (g : Graph) (qc : Nat) (mp : Bool)
    (s2 : Store) (g2 : Graph)
    (hopts : ∀ n ∈ g.nodes, (g.tpc n.type).quantization_config_list ≠ [])
    (h : set_quantization_configuration_to_graph sel s g qc mp = .ok (s2, g2)) :
    ∀ n2 ∈ g2.nodes, n2.candidates_quantization_cfg ≠ [] := by
  unfold set_quantization_configuration_to_graph at h
  split at h
  · exact absurd h (by simp)
  · rename_i s3 ns hloop
    obtain ⟨rfl, rfl⟩ := Prod.mk.injEq .. ▸ (Except.ok.inj h)
    exact setNodesLoop_nonempty g.nodes _ _ _ hopts hloop

/-! ### Witnesses (concrete instantiations, Scenario A/B/C/D data) -/

/-- Witness for C1: the Scenario A run (pairs [(8,8),(4,8),(8,4),(2,2)])
produces a descending-ordered candidate list. -/
theorem C1_witness :
    (rawX.mergeSort candLe).Chain' (fun a b =>
      b.weights_quantization_cfg.weights_n_bits
          < a.weights_quantization_cfg.weights_n_bits ∨
      (a.weights_quantization_cfg.weights_n_bits
          = b.weights_quantization_cfg.weights_n_bits ∧
       b.activation_quantization_cfg.activation_n_bits
          ≤ a.activation_quantization_cfg.activation_n_bits)) :=
  (C1_mixed_precision_candidates_sorted_stable selX storeX 0 fwX 3 optsX 0 s5X
    (rawX.mergeSort candLe) rfl).1

/-- Witness for C2: the Scenario B run yields exactly one candidate. -/
theorem C2_witness :
    ([mkCandX 0 8 8] : List CandidateNodeQuantizationConfig).length = 1 :=
  (C2_single_candidate_from_base_config selX storeX 0 fwX 3 optsX 0 storeX
    [mkCandX 0 8 8] rfl).1

/-- Witness for C3: the Scenario A run yields four candidates, one per
config-list entry. -/
theorem C3_witness :
    (rawX.mergeSort candLe).length = optsX.quantization_config_list.length :=
  C3_mixed_precision_candidate_count selX storeX 0 fwX 3 optsX 0 s5X
    (rawX.mergeSort candLe) rfl

/-- Witness for C4: the Scenario C node (no weights to quantize) ends with a
weights-enable flag of false. -/
theorem C4_witness :
    (reconcileCandidate false true
      (mkCandX 0 8 8)).weights_quantization_cfg.enable_weights_quantization
      = false :=
  ((C4_enable_flags_reconciled selX storeX nodeNoW 0 fwX tpcX false storeX
      { nodeNoW with candidates_quantization_cfg := [reconcileCandidate false true (mkCandX 0 8 8)] }
      rfl).2
    (reconcileCandidate false true (mkCandX 0 8 8)) (by decide)).1 rfl

/-- Witness for C5: writing through the first mixed-precision candidate's
policy reference leaves the caller's policy object (reference 0)
unchanged. -/
theorem C5_witness :
    (Store.write s5X (mkCandX 1 8 8).qcRef vX).read 0 = s5X.read 0 :=
  (C5_deep_copy_isolation selX storeX 0 fwX 3 optsX 0 s5X (rawX.mergeSort candLe)
    rfl (by decide)).2.2.2 (mkCandX 1 8 8) (List.mem_mergeSort.mpr (by decide)) vX

/-- Witness for C6: zero resolved kernel attributes trigger the fatal
assertion. -/
theorem C6_witness :
    create_node_candidates_qc selX storeX 0 fwNoAttrs 3 optsX 0 false
      = .error .assertionError :=
  (C6_kernel_attribute_assertion selX storeX 0 fwNoAttrs 3 optsX 0 false).1
    (by decide)

/-- Witness for C7: the Scenario D unknown weights method aborts with the
fixed weights message. -/
theorem C7_witness :
    create_node_single_candidate_qc selY fwX 0 3 opBad "kernel" =
      .error (.criticalMsg
        ("Unknown quantization method for weights for quantizing attribute: "
          ++ "kernel")) :=
  (C7_unknown_method_abort selY fwX 0 3 opBad "kernel").1 (by decide)

/-- Witness for C8: the configured single-node graph's node carries a
non-empty candidate list. -/
theorem C8_witness : node8X.candidates_quantization_cfg ≠ [] :=
  C8_orchestration_nonempty_candidates selX storeX graphX 0 false storeX g8X
    (by decide) rfl node8X (by decide)

/-- Witness for C9: writing through the single candidate's policy reference
is visible at the caller's reference 0. -/
theorem C9_witness : (Store.write storeX (mkCandX 0 8 8).qcRef vX).read 0 = vX :=
  ((C9_single_candidate_aliases_policy selX storeX 0 fwX 3 optsX 0 storeX
      [mkCandX 0 8 8] rfl).2.2 (mkCandX 0 8 8) (by decide)).2 (by decide) vX

/-- Witness for C10: a node type missing from the kernel-channels dict gives
the unguarded `TypeError`. -/
theorem C10_witness :
    set_quantization_configs_to_node selX storeX nodeX 0 fwNoMap tpcX false
      = .error .typeError :=
  C10_missing_channel_mapping_type_error selX storeX nodeX 0 fwNoMap tpcX false rfl
